import Mathlib

/-!
Shallow embedding of the module registry and remote-execution engine of
`src/modules.rs` (a small ansible-like remote execution tool).

Rust machine behavior is modelled as follows.

* A fallible Rust computation returns `RustResult err ok`: `ok` for a normal
  return, `err` for a returned `anyhow::Error` (modelled by its message
  string), and `panic` for a process panic (`panic!`-style macros,
  `unimplemented` and `unreachable` included) with its message.
* The file system is a partial map from path to file text; `None` models any
  `std::io::Error` (file absent or unreadable).
* TOML/serde parsing of descriptor and payload files is an out-of-scope
  collaborator of the specified core; it is modelled from the spec as a flat
  `key = "value"` line parser in which duplicate keys collapse last-write-wins.
* The `ssh2` session, channel and agent, and the `TcpStream`, are external
  effects; a `World` record says which of them succeed, what each executed
  command outputs, and in which order a Rust `HashMap` yields its entries
  (that iteration order is unspecified in Rust; the model only assumes it is
  a permutation of the entries, and theorems take that as a hypothesis).
* Calls into the caller-supplied `ConnectionProps` synchronization contract
  and commands sent over the remote channel are recorded as an `Event` trace.
-/

set_option maxRecDepth 8000
set_option linter.unusedVariables false

namespace AnsModules

/-- Outcome of running a piece of Rust code: a normal return, a returned
recoverable error (`anyhow::Error`, modelled as its message), or a process
panic carrying the panic message. -/
inductive RustResult (ε α : Type) where
  | ok : α → RustResult ε α
  | err : ε → RustResult ε α
  | panic : String → RustResult ε α
deriving DecidableEq

/-- `Result::map`: apply `f` to a normal return, pass errors and panics on. -/
def RustResult.map {ε α β : Type} (f : α → β) : RustResult ε α → RustResult ε β
  | .ok a => .ok (f a)
  | .err e => .err e
  | .panic m => .panic m

/-- Whether the computation panicked. -/
def RustResult.isPanic {ε α : Type} : RustResult ε α → Bool
  | .panic _ => true
  | _ => false

/-- Whether the computation returned normally. -/
def RustResult.isOk {ε α : Type} : RustResult ε α → Bool
  | .ok _ => true
  | _ => false

/-- `str::to_lowercase`, character by character (ASCII is all that occurs
in module-type tags). -/
def strToLower (s : String) : String := String.mk (s.data.map Char.toLower)

/-- Split a character list at every occurrence of `sep` (the separators are
dropped; `n` separators yield `n+1` pieces). -/
def splitOnChar (sep : Char) : List Char → List (List Char)
  | [] => [[]]
  | c :: rest =>
    match splitOnChar sep rest with
    | [] => if c = sep then [[], []] else [[c]]
    | h :: t => if c = sep then [] :: h :: t else (c :: h) :: t

/-- Split a character list at the first occurrence of `sep`; `none` when
`sep` does not occur. -/
def breakAtChar (sep : Char) : List Char → Option (List Char × List Char)
  | [] => none
  | c :: rest =>
    if c = sep then some ([], rest)
    else
      match breakAtChar sep rest with
      | none => none
      | some (a, b) => some (c :: a, b)

/-- Drop space characters from both ends. -/
def trimSpaces (l : List Char) : List Char :=
  ((l.dropWhile (fun c => c = ' ')).reverse.dropWhile (fun c => c = ' ')).reverse

/-- The double-quote character. -/
def quoteChar : Char := '\"'

/-- Strip one pair of surrounding double quotes; `none` when the list is not
quoted on both ends. -/
def unquote (l : List Char) : Option (List Char) :=
  match l with
  | [] => none
  | c :: rest =>
    if c = quoteChar then
      match rest.reverse with
      | [] => none
      | d :: mid => if d = quoteChar then some mid.reverse else none
    else none

/-- Modelled from the spec: one line of a flat TOML table, `key = "value"`
(the TOML crate and serde are out-of-scope config-loading collaborators).
Splits at the first `=`, trims spaces, and unquotes the value. -/
def parseLine (l : List Char) : Option (String × String) :=
  match breakAtChar '=' l with
  | none => none
  | some (k, v) =>
    match unquote (trimSpaces v) with
    | none => none
    | some inner => some (String.mk (trimSpaces k), String.mk inner)

/-- Modelled from the spec: parse every non-blank line of a flat TOML table;
any malformed line makes the whole parse fail. -/
def parseLines : List (List Char) → Option (List (String × String))
  | [] => some []
  | l :: rest =>
    if trimSpaces l = [] then parseLines rest
    else
      match parseLine l, parseLines rest with
      | some kv, some tail => some (kv :: tail)
      | _, _ => none

/-- Modelled from the spec: `toml::from_str` into a flat string-to-string
table, keeping the file's declared entry order. -/
def parseTable (s : String) : Option (List (String × String)) :=
  parseLines (splitOnChar '\n' s.data)

/-- Modelled from the spec: deserialize a module-descriptor file into its
`module_type` and `exec_path` fields (both required; extra keys ignored,
as serde does by default). The `module_type` string is kept raw here; the
panicking conversion to `ExecType` happens in `ExecType.fromStr`, exactly
as the custom `Deserialize` impl calls `ExecType::from`. -/
def parseDescriptor (s : String) : Option (String × String) :=
  match parseTable s with
  | none => none
  | some tbl =>
    match tbl.lookup "module_type", tbl.lookup "exec_path" with
    | some t, some p => some (t, p)
    | _, _ => none

/-- `HashMap::insert`: replace the value when the key is present, add the
entry otherwise. On the association-list model the replaced entry keeps its
position and a new entry goes to the end; a `HashMap` has no observable
order, so only the key set and the values matter. -/
def upsert (acc : List (String × String)) (k v : String) : List (String × String) :=
  match acc with
  | [] => [(k, v)]
  | (k0, v0) :: rest => if k0 = k then (k0, v) :: rest else (k0, v0) :: upsert rest k v

/-- Modelled from the spec: collecting a parsed table into a `HashMap`,
where duplicate names collapse last-write-wins. The result has pairwise
distinct keys. -/
def lastWinsDedup (l : List (String × String)) : List (String × String) :=
  l.foldl (fun acc p => upsert acc p.1 p.2) []

/-- `std::path::Path::extension` on a file name: `none` when there is no
`.`, or when the only `.` is the leading one (hidden files); otherwise the
portion after the final `.`. -/
def pathExtension (fileName : String) : Option String :=
  match splitOnChar '.' fileName.data with
  | [] => none
  | [_] => none
  | first :: rest =>
    if first = [] ∧ rest.length = 1 then none
    else (rest.getLast?).map String.mk

/-- UTF-8 bytes of one character (as `Nat`s below 256). -/
def charUtf8 (c : Char) : List Nat :=
  let n := c.toNat
  if n < 128 then [n]
  else if n < 2048 then [192 + n / 64, 128 + n % 64]
  else if n < 65536 then [224 + n / 4096, 128 + n / 64 % 64, 128 + n % 64]
  else [240 + n / 262144, 128 + n / 4096 % 64, 128 + n / 64 % 64, 128 + n % 64]

/-- UTF-8 byte sequence of a string. -/
def utf8Bytes (s : String) : List Nat := s.data.flatMap charUtf8

/-- The standard base64 alphabet. -/
def base64Alphabet : String :=
  "ABCDEFGHIJKLMNOPQRSTUVWXYZabcdefghijklmnopqrstuvwxyz0123456789+/"

/-- Character at index `n` of the base64 alphabet. -/
def b64Char (n : Nat) : Char := base64Alphabet.data.getD n 'A'

/-- Standard base64 with `=` padding over a byte list (the behavior of
`base64::encode`). -/
def base64EncodeBytes : List Nat → List Char
  | [] => []
  | [a] => [b64Char (a / 4), b64Char (a % 4 * 16), '=', '=']
  | [a, b] => [b64Char (a / 4), b64Char (a % 4 * 16 + b / 16), b64Char (b % 16 * 4), '=']
  | a :: b :: c :: rest =>
    b64Char (a / 4) :: b64Char (a % 4 * 16 + b / 16) ::
      b64Char (b % 16 * 4 + c / 64) :: b64Char (c % 64) :: base64EncodeBytes rest

/-- `base64::encode` of a string's UTF-8 bytes. -/
def base64Encode (s : String) : String := String.mk (base64EncodeBytes (utf8Bytes s))

/-- The inline interpreter invocation built by `Module::new` for Python
modules: `format!("python2 -c \" exec('{}'.decode('base64'))\"", com64)`. -/
def pythonWrap (com64 : String) : String :=
  "python2 -c \" exec('" ++ com64 ++ "'.decode('base64'))\""

/-- The three module kinds. -/
inductive ExecType where
  | Bin
  | Python
  | Bash
deriving DecidableEq

/-- `ExecType::from(&str)`: case-insensitive tag match; any unrecognized
tag hits `panic!("Bad module type provided: {}", a)`. -/
def ExecType.fromStr (a : String) : RustResult String ExecType :=
  if strToLower a = "bin" then .ok .Bin
  else if strToLower a = "bash" then .ok .Bash
  else if strToLower a = "sh" then .ok .Bash
  else if strToLower a = "py" then .ok .Python
  else if strToLower a = "python" then .ok .Python
  else .panic ("Bad module type provided: " ++ a)

/-- The materialized payload: a shell command table, a binary path, or an
inline Python interpreter invocation. `Shell` keeps the table's entries
(pairwise-distinct keys); the `HashMap` iteration order over them is
supplied separately by `World.iterOrder`. -/
inductive ModuleContent where
  | Shell : List (String × String) → ModuleContent
  | Binary : String → ModuleContent
  | Python : String → ModuleContent
deriving DecidableEq

/-- `CommandOutput`: per-command outputs for Shell modules, one blob
otherwise. -/
inductive CommandOutput where
  | Multi : List (String × String) → CommandOutput
  | Single : String → CommandOutput
deriving DecidableEq

/-- A module: kind tag and materialized content. -/
structure Module where
  module_type : ExecType
  module_content : ModuleContent
deriving DecidableEq

/-- `AuthType`: authenticate via the local agent, optionally naming a key. -/
inductive AuthType where
  | AgentFirst : String → AuthType
  | AgentWithKeyName : String → String → AuthType
deriving DecidableEq

/-- A call made to the local identity agent. -/
inductive AuthCall where
  | userauthAgent : String → AuthCall
deriving DecidableEq

/-- Observable actions of one execution: the four `ConnectionProps`
synchronization hooks and each command text passed to `channel.exec`. -/
inductive Event where
  | tcpSync
  | tcpRelease
  | agentSync
  | agentRelease
  | chanExec : String → Event
deriving DecidableEq

/-- The external world of one `execute` call: which fallible external steps
succeed (TCP connect, `Session::new`, handshake, agent authentication,
`channel_session`), what output each executed command produces (`none` is a
failed `exec`/read), and the `HashMap` iteration order (an unspecified
permutation of the entries; theorems hypothesize the permutation). -/
structure World where
  connectOk : Bool
  sessionNewOk : Bool
  handshakeOk : Bool
  authOk : Bool
  channelOk : Bool
  execResult : String → Option String
  iterOrder : List (String × String) → List (String × String)

/-- The local file system: path to file text; `none` is any read failure. -/
def FileSystem : Type := String → Option String

/-- The `file_2_string` closure of `Module::new`: read a file to a string. -/
def file_2_string (fs : FileSystem) (p : String) : Option String := fs p

/-- `ModuleProps::check_filename`: keep a directory entry whose path
extension lowercases to `"mod"`. -/
def ModuleProps.check_filename (fileName : String) : Bool :=
  match pathExtension fileName with
  | some ext => strToLower ext == "mod"
  | none => false

/-- `AuthType::auth`: `AgentFirst` asks the agent to authenticate the
username (one `userauth_agent` call, failing iff the world says so);
`AgentWithKeyName` hits `unimplemented!()`, i.e. panics with
"not implemented" before any agent call. -/
def AuthType.auth (a : AuthType) (w : World) : List AuthCall × RustResult String Unit :=
  match a with
  | .AgentFirst username =>
    ([AuthCall.userauthAgent username],
      if w.authOk then .ok () else .err "userauth_agent failure")
  | .AgentWithKeyName _ _ => ([], .panic "not implemented")

/-- `Module::new`: read and deserialize the descriptor (the `ExecType`
field conversion can panic), then materialize the content: `Bin` keeps the
path, `Python` reads the payload and stores the base64-wrapped interpreter
invocation, `Bash` reads and parses the payload table into a `HashMap`. -/
def Module.new (fs : FileSystem) (path : String) : RustResult String Module :=
  match file_2_string fs path with
  | none => .err ("error reading file: " ++ path)
  | some content =>
    match parseDescriptor content with
    | none => .err ("error parsing module descriptor: " ++ path)
    | some (typeStr, execPath) =>
      match ExecType.fromStr typeStr with
      | .panic m => .panic m
      | .err e => .err e
      | .ok ExecType.Bin => .ok ⟨ExecType.Bin, ModuleContent.Binary execPath⟩
      | .ok ExecType.Python =>
        match file_2_string fs execPath with
        | none => .err ("error reading file: " ++ execPath)
        | some payload =>
          .ok ⟨ExecType.Python, ModuleContent.Python (pythonWrap (base64Encode payload))⟩
      | .ok ExecType.Bash =>
        match file_2_string fs execPath with
        | none => .err ("error reading file: " ++ execPath)
        | some unparsed =>
          match parseTable unparsed with
          | none => .err ("error parsing payload table: " ++ execPath)
          | some table => .ok ⟨ExecType.Bash, ModuleContent.Shell (lastWinsDedup table)⟩

/-- `Module::obtain_connection_and_auth`: `tcp_synchronization`, TCP
connect, `Session::new`, handshake (each `?`-propagating its error), then
`agent_synchronization`, `auth.auth` (`?`-propagating a wrapped
"Authentication Error"), then `agent_release`. An auth error or panic
returns before `agent_release` runs — exactly as the `?` on line
`auth.auth(&sess)...?` does. -/
def Module.obtain_connection_and_auth (self : Module) (auth : AuthType) (w : World) :
    List Event × RustResult String Unit :=
  if w.connectOk then
    if w.sessionNewOk then
      if w.handshakeOk then
        match (AuthType.auth auth w).2 with
        | .ok _ => ([Event.tcpSync, Event.agentSync, Event.agentRelease], .ok ())
        | .err e =>
          ([Event.tcpSync, Event.agentSync], .err ("Authentication Error " ++ e))
        | .panic m => ([Event.tcpSync, Event.agentSync], .panic m)
      else ([Event.tcpSync], .err "Failed establishing handshake")
    else ([Event.tcpSync], .err "Error initializing session")
  else ([Event.tcpSync], .err "tcp connect error")

/-- The `for (command_name, command) in content` loop of
`execute_bash_script`: run each command in iteration order over the single
channel, stopping at the first failed `exec`/read, inserting
`name → output` into the result `HashMap` (`acc`). -/
def runCommands (w : World) (acc : List (String × String)) :
    List (String × String) → List Event × RustResult String (List (String × String))
  | [] => ([], .ok acc)
  | (name, cmd) :: rest =>
    match w.execResult cmd with
    | none => ([Event.chanExec cmd], .err ("command execution error: " ++ cmd))
    | some out =>
      let p := runCommands w (upsert acc name out) rest
      (Event.chanExec cmd :: p.1, p.2)

/-- `Module::execute_bash_script`: obtain a session, take the `Shell` table
(`unreachable!()` panic on any other content), open a channel, then run the
commands in the `HashMap`'s iteration order `w.iterOrder`. -/
def Module.execute_bash_script (self : Module) (auth : AuthType) (w : World) :
    List Event × RustResult String (List (String × String)) :=
  match self.obtain_connection_and_auth auth w with
  | (tr, RustResult.ok _) =>
    match self.module_content with
    | ModuleContent.Shell entries =>
      if w.channelOk then
        let p := runCommands w [] (w.iterOrder entries)
        (tr ++ p.1, p.2)
      else (tr, .err "error opening channel session")
    | _ => (tr, .panic "internal error: entered unreachable code")
  | (tr, RustResult.err e) => (tr, .err e)
  | (tr, RustResult.panic m) => (tr, .panic m)

/-- `Module::execute_python_script`: obtain a session, take the stored
`Python` script (`unreachable!()` otherwise), open a channel and send the
stored string — exactly as cached, with no re-encoding. -/
def Module.execute_python_script (self : Module) (auth : AuthType) (w : World) :
    List Event × RustResult String String :=
  match self.obtain_connection_and_auth auth w with
  | (tr, RustResult.ok _) =>
    match self.module_content with
    | ModuleContent.Python script =>
      if w.channelOk then
        match w.execResult script with
        | some out => (tr ++ [Event.chanExec script], .ok out)
        | none => (tr ++ [Event.chanExec script], .err ("command execution error: " ++ script))
      else (tr, .err "error opening channel session")
    | _ => (tr, .panic "internal error: entered unreachable code")
  | (tr, RustResult.err e) => (tr, .err e)
  | (tr, RustResult.panic m) => (tr, .panic m)

/-- `Module::execute`: dispatch on the kind — Bash runs the script and wraps
the map in `Multi`; Python and Bin hit `unimplemented!()` inside the match,
panicking before `tcp_release`. `sync.tcp_release()` runs after the match,
so it is skipped exactly when the match panicked. -/
def Module.execute (self : Module) (auth : AuthType) (w : World) :
    List Event × RustResult String CommandOutput :=
  match self.module_type with
  | ExecType.Bash =>
    match self.execute_bash_script auth w with
    | (tr, RustResult.ok m) => (tr ++ [Event.tcpRelease], .ok (CommandOutput.Multi m))
    | (tr, RustResult.err e) => (tr ++ [Event.tcpRelease], .err e)
    | (tr, RustResult.panic m) => (tr, .panic m)
  | ExecType.Python => ([], .panic "not implemented")
  | ExecType.Bin => ([], .panic "not implemented")

/-- The commands sent over the remote channel, in order. -/
def sentCommands (tr : List Event) : List String :=
  tr.filterMap fun e =>
    match e with
    | Event.chanExec c => some c
    | _ => none

/-- `ModuleTree`: the registry, a `HashMap` from key to `Module`. -/
structure ModuleTree where
  tree : List (String × Module)
deriving DecidableEq

/-- `ModuleTree::check_module`: `contains_key`. -/
def ModuleTree.check_module (t : ModuleTree) (name : String) : Bool :=
  (t.tree.lookup name).isSome

/-- The collection phase of `ModuleTree::new` over the filtered candidates,
in directory order: a failing `Module::new` is logged and skipped, a
panicking one aborts the whole construction, a successful one is keyed by
`name.path().file_name()` — the full file name, extension included. -/
def collectModules (fs : FileSystem) : List String → RustResult String (List (String × Module))
  | [] => .ok []
  | name :: rest =>
    match Module.new fs name with
    | .panic m => .panic m
    | .err _ => collectModules fs rest
    | .ok m => (collectModules fs rest).map (fun l => (name, m) :: l)

/-- `ModuleTree::new`: walk the directory (modelled as the list of entry
file names), keep only names passing `check_filename`, then build modules
and collect the survivors. -/
def ModuleTree.new (fs : FileSystem) (entries : List String) : RustResult String ModuleTree :=
  (collectModules fs (entries.filter (fun e => ModuleProps.check_filename e))).map ModuleTree.mk

/-- `ModuleTree::run_module`: look the name up, `ok_or_else` a
"Module ... not found" error, then execute. -/
def ModuleTree.run_module (t : ModuleTree) (name : String) (auth : AuthType) (w : World) :
    List Event × RustResult String CommandOutput :=
  match t.tree.lookup name with
  | none => ([], .err ("Module " ++ name ++ " not found"))
  | some m => m.execute auth w

/-! Concrete fixtures used to instantiate the theorems below. -/

/-- A directory with one valid Bash module: descriptor `foo.mod` pointing at
payload table `cmds.toml`. -/
def fsGood : FileSystem := fun p =>
  if p = "foo.mod" then some "module_type = \"bash\"\nexec_path = \"cmds.toml\""
  else if p = "cmds.toml" then some "first = \"ls\"\nsecond = \"uptime\"" else none

/-- The command table of `cmds.toml`, in declared order. -/
def entriesW : List (String × String) := [("first", "ls"), ("second", "uptime")]

/-- The module materialized from `fsGood`'s `foo.mod`. -/
def mW : Module := ⟨ExecType.Bash, ModuleContent.Shell entriesW⟩

/-- A world where every external step succeeds, each command outputs its own
text plus `" output"`, and the `HashMap` iterates in entry order. -/
def wOk : World :=
  { connectOk := true, sessionNewOk := true, handshakeOk := true, authOk := true,
    channelOk := true, execResult := fun c => some (c ++ " output"), iterOrder := id }

/-- Like `wOk`, but the agent rejects the authentication attempt. -/
def wAuthFail : World := { wOk with authOk := false }

/-- Like `wOk`, but the `HashMap` iterates in reversed entry order (every
permutation is a legal iteration order for a Rust `HashMap`). -/
def wRev : World := { wOk with iterOrder := List.reverse }

/-- The event trace of `mW.execute` under `wOk`. -/
def trW : List Event :=
  [Event.tcpSync, Event.agentSync, Event.agentRelease,
   Event.chanExec "ls", Event.chanExec "uptime", Event.tcpRelease]

/-- The result map of `mW.execute` under `wOk`. -/
def resW : List (String × String) := [("first", "ls output"), ("second", "uptime output")]

/-- A directory holding a descriptor with the unrecognized module type
`frobnicate` next to a fully valid Bash module. -/
def fsBad : FileSystem := fun p =>
  if p = "bad.mod" then some "module_type = \"frobnicate\"\nexec_path = \"x\""
  else if p = "foo.mod" then some "module_type = \"bash\"\nexec_path = \"cmds.toml\""
  else if p = "cmds.toml" then some "first = \"ls\"\nsecond = \"uptime\"" else none

/-- A directory with one valid Python module whose payload is `print(1)`. -/
def fsPy : FileSystem := fun p =>
  if p = "py.mod" then some "module_type = \"py\"\nexec_path = \"script.py\""
  else if p = "script.py" then some "print(1)" else none

/-- The script stored for `fsPy`'s module: the base64-wrapped invocation. -/
def scriptPy : String := pythonWrap (base64Encode "print(1)")

/-- The module materialized from `fsPy`'s `py.mod`. -/
def mPy : Module := ⟨ExecType.Python, ModuleContent.Python scriptPy⟩

/-- The event trace of `mPy.execute_python_script` under `wOk`. -/
def trPy : List Event :=
  [Event.tcpSync, Event.agentSync, Event.agentRelease, Event.chanExec scriptPy]

/-- The registry built from `fsGood`. -/
def tGood : ModuleTree := ⟨[("foo.mod", mW)]⟩

/-- The empty registry. -/
def tEmpty : ModuleTree := ⟨[]⟩

end AnsModules

/-! Helper lemmas about the embedded operations. -/

namespace AnsModules

theorem upsert_keys_not_mem (k v : String) :
    ∀ acc : List (String × String), k ∉ acc.map Prod.fst →
      (upsert acc k v).map Prod.fst = acc.map Prod.fst ++ [k]
  | [], _ => rfl
  | (k0, v0) :: rest, h => by
    have hk : ¬ k0 = k := by
      intro hh
      exact h (by simp [hh])
    have hrest : k ∉ rest.map Prod.fst := by
      intro hh
      exact h (by simp [hh])
    simp [upsert, hk, upsert_keys_not_mem k v rest hrest]

theorem upsert_keys_mem (k v : String) :
    ∀ acc : List (String × String), k ∈ acc.map Prod.fst →
      (upsert acc k v).map Prod.fst = acc.map Prod.fst
  | [], h => absurd h (by simp)
  | (k0, v0) :: rest, h => by
    by_cases hk : k0 = k
    · simp [upsert, hk]
    · have hrest : k ∈ rest.map Prod.fst := by
        simp only [List.map_cons, List.mem_cons] at h
        rcases h with h1 | h1
        · exact absurd h1.symm hk
        · exact h1
      simp [upsert, hk, upsert_keys_mem k v rest hrest]

theorem upsert_keys_nodup (k v : String) (acc : List (String × String))
    (h : (acc.map Prod.fst).Nodup) : ((upsert acc k v).map Prod.fst).Nodup := by
  by_cases hk : k ∈ acc.map Prod.fst
  · rw [upsert_keys_mem k v acc hk]
    exact h
  · rw [upsert_keys_not_mem k v acc hk]
    simp [List.nodup_append, h, hk]

theorem foldl_upsert_keys_nodup :
    ∀ (l acc : List (String × String)), (acc.map Prod.fst).Nodup →
      ((l.foldl (fun acc p => upsert acc p.1 p.2) acc).map Prod.fst).Nodup
  | [], acc, h => h
  | p :: rest, acc, h =>
    foldl_upsert_keys_nodup rest (upsert acc p.1 p.2) (upsert_keys_nodup p.1 p.2 acc h)

theorem lastWinsDedup_keys_nodup (l : List (String × String)) :
    ((lastWinsDedup l).map Prod.fst).Nodup :=
  foldl_upsert_keys_nodup l [] (by simp)

theorem fromStr_panic_msg (s msg : String) (h : ExecType.fromStr s = RustResult.panic msg) :
    msg = "Bad module type provided: " ++ s := by
  unfold ExecType.fromStr at h
  split_ifs at h
  all_goals simp_all

theorem moduleNew_panic_msg (fs : FileSystem) (p msg : String)
    (h : Module.new fs p = RustResult.panic msg) :
    ∃ a, msg = "Bad module type provided: " ++ a := by
  unfold Module.new at h
  cases hfs : file_2_string fs p with
  | none => simp [hfs] at h
  | some content =>
    simp only [hfs] at h
    cases hd : parseDescriptor content with
    | none => simp [hd] at h
    | some tp =>
      obtain ⟨typeStr, execPath⟩ := tp
      simp only [hd] at h
      cases hts : ExecType.fromStr typeStr with
      | panic m =>
        simp only [hts, RustResult.panic.injEq] at h
        subst h
        exact ⟨typeStr, fromStr_panic_msg typeStr m hts⟩
      | err e => simp [hts] at h
      | ok t =>
        simp only [hts] at h
        cases t with
        | Bin => simp at h
        | Python =>
          cases hp : file_2_string fs execPath with
          | none => simp [hp] at h
          | some payload => simp [hp] at h
        | Bash =>
          cases hp : file_2_string fs execPath with
          | none => simp [hp] at h
          | some unparsed =>
            simp only [hp] at h
            cases ht : parseTable unparsed with
            | none => simp [ht] at h
            | some table => simp [ht] at h

theorem moduleNew_shell_nodup (fs : FileSystem) (p : String) (m : Module)
    (entries : List (String × String)) (hnew : Module.new fs p = RustResult.ok m)
    (hcontent : m.module_content = ModuleContent.Shell entries) :
    (entries.map Prod.fst).Nodup := by
  unfold Module.new at hnew
  cases hfs : file_2_string fs p with
  | none => simp [hfs] at hnew
  | some content =>
    simp only [hfs] at hnew
    cases hd : parseDescriptor content with
    | none => simp [hd] at hnew
    | some tp =>
      obtain ⟨typeStr, execPath⟩ := tp
      simp only [hd] at hnew
      cases hts : ExecType.fromStr typeStr with
      | panic mm => simp [hts] at hnew
      | err e => simp [hts] at hnew
      | ok t =>
        simp only [hts] at hnew
        cases t with
        | Bin =>
          simp only [RustResult.ok.injEq] at hnew
          rw [← hnew] at hcontent
          exact absurd hcontent (by simp)
        | Python =>
          cases hp : file_2_string fs execPath with
          | none => simp [hp] at hnew
          | some payload =>
            simp only [hp, RustResult.ok.injEq] at hnew
            rw [← hnew] at hcontent
            exact absurd hcontent (by simp)
        | Bash =>
          cases hp : file_2_string fs execPath with
          | none => simp [hp] at hnew
          | some unparsed =>
            simp only [hp] at hnew
            cases ht : parseTable unparsed with
            | none => simp [ht] at hnew
            | some table =>
              simp only [ht, RustResult.ok.injEq] at hnew
              rw [← hnew] at hcontent
              simp only [ModuleContent.Shell.injEq] at hcontent
              rw [← hcontent]
              exact lastWinsDedup_keys_nodup table

end AnsModules

namespace AnsModules

theorem runCommands_events (w : World) :
    ∀ (l acc : List (String × String)) (e : Event),
      e ∈ (runCommands w acc l).1 → ∃ c, e = Event.chanExec c
  | [], acc, e, h => absurd h (by simp [runCommands])
  | (name, cmd) :: rest, acc, e, h => by
    unfold runCommands at h
    cases hec : w.execResult cmd with
    | none =>
      simp only [hec] at h
      simp at h
      exact ⟨cmd, h⟩
    | some out =>
      simp only [hec, List.mem_cons] at h
      rcases h with h | h
      · exact ⟨cmd, h⟩
      · exact runCommands_events w rest (upsert acc name out) e h

theorem runCommands_ok_trace (w : World) :
    ∀ (l acc : List (String × String)) (tr : List Event) (res : List (String × String)),
      runCommands w acc l = (tr, RustResult.ok res) →
      tr = l.map (fun p => Event.chanExec p.2)
  | [], acc, tr, res, h => by
    unfold runCommands at h
    simp only [Prod.mk.injEq] at h
    simp [← h.1]
  | (name, cmd) :: rest, acc, tr, res, h => by
    unfold runCommands at h
    cases hec : w.execResult cmd with
    | none => simp [hec] at h
    | some out =>
      simp only [hec, Prod.mk.injEq] at h
      obtain ⟨h1, h2⟩ := h
      have := runCommands_ok_trace w rest (upsert acc name out) _ res (Prod.ext rfl h2)
      simp [← h1, this]

theorem runCommands_ok_keys (w : World) :
    ∀ (l acc : List (String × String)) (tr : List Event) (res : List (String × String)),
      (acc.map Prod.fst ++ l.map Prod.fst).Nodup →
      runCommands w acc l = (tr, RustResult.ok res) →
      res.map Prod.fst = acc.map Prod.fst ++ l.map Prod.fst
  | [], acc, tr, res, hnd, h => by
    unfold runCommands at h
    simp only [Prod.mk.injEq, RustResult.ok.injEq] at h
    simp [← h.2]
  | (name, cmd) :: rest, acc, tr, res, hnd, h => by
    unfold runCommands at h
    cases hec : w.execResult cmd with
    | none => simp [hec] at h
    | some out =>
      simp only [hec, Prod.mk.injEq] at h
      obtain ⟨h1, h2⟩ := h
      have hname : name ∉ acc.map Prod.fst := by
        rw [List.nodup_append] at hnd
        intro hmem
        exact hnd.2.2 hmem (by simp)
      have hup : (upsert acc name out).map Prod.fst = acc.map Prod.fst ++ [name] :=
        upsert_keys_not_mem name out acc hname
      have hnd2 : ((upsert acc name out).map Prod.fst ++ rest.map Prod.fst).Nodup := by
        rw [hup, ← List.append_cons]
        simpa using hnd
      have := runCommands_ok_keys w rest (upsert acc name out) _ res hnd2 (Prod.ext rfl h2)
      rw [this, hup, ← List.append_cons]
      simp

theorem obtain_trace_cases (self : Module) (auth : AuthType) (w : World) :
    (self.obtain_connection_and_auth auth w).1 = [Event.tcpSync] ∨
    (self.obtain_connection_and_auth auth w).1 = [Event.tcpSync, Event.agentSync] ∨
    (self.obtain_connection_and_auth auth w).1 =
      [Event.tcpSync, Event.agentSync, Event.agentRelease] := by
  unfold Module.obtain_connection_and_auth
  split_ifs
  all_goals try simp
  split
  all_goals simp

end AnsModules

namespace AnsModules

theorem obtain_counts (self : Module) (auth : AuthType) (w : World) :
    (self.obtain_connection_and_auth auth w).1.count Event.tcpSync = 1 ∧
    (self.obtain_connection_and_auth auth w).1.count Event.tcpRelease = 0 ∧
    sentCommands (self.obtain_connection_and_auth auth w).1 = [] := by
  rcases obtain_trace_cases self auth w with h | h | h
  all_goals rw [h]
  all_goals exact ⟨by decide, by decide, by decide⟩

theorem runCommands_counts (w : World) (l acc : List (String × String)) :
    (runCommands w acc l).1.count Event.tcpSync = 0 ∧
    (runCommands w acc l).1.count Event.tcpRelease = 0 := by
  constructor
  all_goals
    rw [List.count_eq_zero]
    intro hmem
    rcases runCommands_events w l acc _ hmem with ⟨c, hc⟩
    exact absurd hc (by simp)

theorem bash_trace_counts (self : Module) (auth : AuthType) (w : World) :
    (self.execute_bash_script auth w).1.count Event.tcpSync = 1 ∧
    (self.execute_bash_script auth w).1.count Event.tcpRelease = 0 := by
  obtain ⟨hs, hr, _⟩ := obtain_counts self auth w
  unfold Module.execute_bash_script
  rcases hob : self.obtain_connection_and_auth auth w with ⟨tro, ro⟩
  rw [hob] at hs hr
  simp only at hs hr
  cases ro with
  | ok u =>
    cases hc : self.module_content with
    | Shell entries =>
      by_cases hch : w.channelOk
      · obtain ⟨rs, rr⟩ := runCommands_counts w (w.iterOrder entries) []
        simp [hch, List.count_append, hs, hr, rs, rr]
      · simp [hch, hs, hr]
    | Binary path => simp [hs, hr]
    | Python s => simp [hs, hr]
  | err e => simp [hs, hr]
  | panic m => simp [hs, hr]

end AnsModules

namespace AnsModules

/-- Claim C2: for every call to `Module::execute` that returns (successfully
or with an error, i.e. that does not panic), the number of `tcp_release`
calls made through the synchronization contract equals the number of
`tcp_synchronization` calls made during that call — for every module kind,
every authentication strategy and every combination of connection,
handshake, authentication, channel and command failures. -/
theorem execute_tcp_balanced (m : Module) (auth : AuthType) (w : World)
    (h : ((m.execute auth w).2).isPanic = false) :
    (m.execute auth w).1.count Event.tcpRelease = (m.execute auth w).1.count Event.tcpSync := by
  obtain ⟨bs, br⟩ := bash_trace_counts m auth w
  unfold Module.execute at h ⊢
  cases ht : m.module_type with
  | Python => simp only [ht] at h; simp [RustResult.isPanic] at h
  | Bin => simp only [ht] at h; simp [RustResult.isPanic] at h
  | Bash =>
    simp only [ht] at h ⊢
    rcases hbs : m.execute_bash_script auth w with ⟨tr2, r2⟩
    rw [hbs] at bs br
    simp only at bs br
    simp only [hbs] at h ⊢
    have c1 : ([Event.tcpRelease] : List Event).count Event.tcpRelease = 1 := by decide
    have c2 : ([Event.tcpRelease] : List Event).count Event.tcpSync = 0 := by decide
    cases r2 with
    | ok res => simp [List.count_append, bs, br, c1, c2]
    | err e => simp [List.count_append, bs, br, c1, c2]
    | panic msg => simp [RustResult.isPanic] at h

/-- Witness for C2: a successful Bash execution in a fully working world
satisfies the hypothesis and the balance. -/
theorem execute_tcp_balanced_witness :
    ((mW.execute (AuthType.AgentFirst "user") wOk).2).isPanic = false ∧
    (mW.execute (AuthType.AgentFirst "user") wOk).1.count Event.tcpRelease =
      (mW.execute (AuthType.AgentFirst "user") wOk).1.count Event.tcpSync :=
  ⟨by decide, execute_tcp_balanced mW (AuthType.AgentFirst "user") wOk (by decide)⟩

/-- Claim C5 (code bug evidence): when TCP connect, session init and
handshake succeed but agent authentication fails, the attempt returns the
wrapped `AuthenticationError` having called `agent_synchronization` once and
`agent_release` zero times — the agent hook is not released on the
authentication-failure exit path (the `?` on `auth.auth(&sess)` returns
before `sync.agent_release()`; the line is even marked `//todo fixme`). -/
theorem agent_not_released_on_auth_failure :
    (mW.obtain_connection_and_auth (AuthType.AgentFirst "user") wAuthFail).1.count
      Event.agentSync = 1 ∧
    (mW.obtain_connection_and_auth (AuthType.AgentFirst "user") wAuthFail).1.count
      Event.agentRelease = 0 ∧
    (mW.obtain_connection_and_auth (AuthType.AgentFirst "user") wAuthFail).2 =
      RustResult.err "Authentication Error userauth_agent failure" := by decide

/-- Claim C9: applying the `AgentWithKeyName` strategy never performs plain
agent authentication for the username (no `userauth_agent` call is made, so
it cannot silently degrade to `AgentFirst` semantics); it aborts with the
explicit `unimplemented!()` panic "not implemented" instead. -/
theorem agentWithKeyName_no_agent_fallback (u k : String) (w : World) :
    (AuthType.auth (AuthType.AgentWithKeyName u k) w).1 = [] ∧
    (AuthType.auth (AuthType.AgentWithKeyName u k) w).2 =
      RustResult.panic "not implemented" :=
  ⟨rfl, rfl⟩

end AnsModules

namespace AnsModules

theorem sentCommands_append (a b : List Event) :
    sentCommands (a ++ b) = sentCommands a ++ sentCommands b :=
  List.filterMap_append a b _

theorem sentCommands_chanExec_map (l : List (String × String)) :
    sentCommands (l.map (fun p => Event.chanExec p.2)) = l.map Prod.snd := by
  induction l with
  | nil => rfl
  | cons p rest ih =>
    simp only [List.map_cons, sentCommands, List.filterMap_cons] at ih ⊢
    rw [ih]

theorem execute_bash_ok_decomp (m : Module) (entries : List (String × String))
    (auth : AuthType) (w : World) (tr : List Event) (res : List (String × String))
    (hcontent : m.module_content = ModuleContent.Shell entries)
    (hexec : m.execute auth w = (tr, RustResult.ok (CommandOutput.Multi res))) :
    (runCommands w [] (w.iterOrder entries)).2 = RustResult.ok res ∧
    sentCommands tr = (w.iterOrder entries).map Prod.snd := by
  unfold Module.execute at hexec
  cases ht : m.module_type with
  | Python => simp only [ht] at hexec; simp at hexec
  | Bin => simp only [ht] at hexec; simp at hexec
  | Bash =>
    simp only [ht] at hexec
    rcases hbs : m.execute_bash_script auth w with ⟨tr2, r2⟩
    simp only [hbs] at hexec
    cases r2 with
    | err e => simp at hexec
    | panic msg => simp at hexec
    | ok lst =>
      simp only [Prod.mk.injEq, RustResult.ok.injEq, CommandOutput.Multi.injEq] at hexec
      obtain ⟨htr, hres⟩ := hexec
      subst hres
      obtain ⟨_, _, hsento⟩ := obtain_counts m auth w
      unfold Module.execute_bash_script at hbs
      rcases hob : m.obtain_connection_and_auth auth w with ⟨tro, ro⟩
      rw [hob] at hsento
      simp only at hsento
      simp only [hob] at hbs
      cases ro with
      | err e => simp at hbs
      | panic mm => simp at hbs
      | ok u =>
        simp only [hcontent] at hbs
        rcases hrc : runCommands w [] (w.iterOrder entries) with ⟨rtr, rres⟩
        by_cases hch : w.channelOk
        · simp only [hch, if_true, hrc] at hbs
          simp only [Prod.mk.injEq] at hbs
          obtain ⟨hbtr, hbres⟩ := hbs
          constructor
          · exact hbres
          · rw [← htr, ← hbtr, sentCommands_append, sentCommands_append, hsento]
            have hruntr : rtr = (w.iterOrder entries).map (fun p => Event.chanExec p.2) :=
              runCommands_ok_trace w (w.iterOrder entries) [] rtr lst (by rw [hrc, hbres])
            rw [hruntr, sentCommands_chanExec_map]
            simp [sentCommands]
        · simp [hch] at hbs

end AnsModules

namespace AnsModules

/-- Claim C3: for every valid Bash module (one actually materialized by
`Module::new`, so its Shell table has pairwise-distinct keys) whose content
declares N commands, a successful `execute` under any `HashMap` iteration
order returns `Multi` with exactly N entries whose key list is a permutation
of (hence equal as a set to) the declared command names. -/
theorem bash_execute_complete (fs : FileSystem) (p : String) (m : Module)
    (entries : List (String × String)) (auth : AuthType) (w : World)
    (tr : List Event) (res : List (String × String))
    (hnew : Module.new fs p = RustResult.ok m)
    (hcontent : m.module_content = ModuleContent.Shell entries)
    (hiter : (w.iterOrder entries).Perm entries)
    (hexec : m.execute auth w = (tr, RustResult.ok (CommandOutput.Multi res))) :
    res.length = entries.length ∧ (res.map Prod.fst).Perm (entries.map Prod.fst) := by
  obtain ⟨hrun, _⟩ := execute_bash_ok_decomp m entries auth w tr res hcontent hexec
  have hnd : (entries.map Prod.fst).Nodup := moduleNew_shell_nodup fs p m entries hnew hcontent
  have hpermkeys : ((w.iterOrder entries).map Prod.fst).Perm (entries.map Prod.fst) :=
    hiter.map Prod.fst
  have hndi : ((w.iterOrder entries).map Prod.fst).Nodup := hpermkeys.nodup_iff.mpr hnd
  have hkeys := runCommands_ok_keys w (w.iterOrder entries) []
    (runCommands w [] (w.iterOrder entries)).1 res (by simpa using hndi)
    (Prod.ext rfl hrun)
  simp only [List.map_nil, List.nil_append] at hkeys
  constructor
  · have hlen : res.length = (w.iterOrder entries).length := by
      have := congrArg List.length hkeys
      simpa using this
    rw [hlen, hiter.length_eq]
  · rw [hkeys]
    exact hpermkeys

/-- Witness for C3: the fixture Bash module executed in the all-success
world returns both declared commands, keys matching. -/
theorem bash_execute_complete_witness :
    resW.length = entriesW.length ∧ (resW.map Prod.fst).Perm (entriesW.map Prod.fst) :=
  bash_execute_complete fsGood "foo.mod" mW entriesW (AuthType.AgentFirst "user") wOk trW resW
    (by decide) rfl (by decide) (by decide)

/-- Claim C4 counterexample: reversed iteration is a legal `HashMap`
iteration order (a permutation of the declared entries), and under it the
sequence of commands sent to the remote channel is not the declared
sequence — the code never orders the loop by declaration order. -/
theorem bash_order_not_declared_cex :
    (wRev.iterOrder entriesW).Perm entriesW ∧
    sentCommands (mW.execute (AuthType.AgentFirst "user") wRev).1 ≠
      entriesW.map Prod.snd := by
  constructor
  · decide
  · decide

/-- Claim C4 amended: within one Bash module execution the commands are sent
sequentially, each exactly once, in the `HashMap`'s iteration order — which
is some permutation of the declared pairs, not necessarily the declared
order itself. -/
theorem bash_order_iteration (m : Module) (entries : List (String × String))
    (auth : AuthType) (w : World) (tr : List Event) (res : List (String × String))
    (hcontent : m.module_content = ModuleContent.Shell entries)
    (hexec : m.execute auth w = (tr, RustResult.ok (CommandOutput.Multi res))) :
    sentCommands tr = (w.iterOrder entries).map Prod.snd ∧
    ((w.iterOrder entries).Perm entries →
      (sentCommands tr).Perm (entries.map Prod.snd)) := by
  obtain ⟨_, hsent⟩ := execute_bash_ok_decomp m entries auth w tr res hcontent hexec
  refine ⟨hsent, fun hp => ?_⟩
  rw [hsent]
  exact hp.map Prod.snd

/-- Witness for the amended C4: in the fixture execution the sent sequence
is the iteration order, a permutation of the declared commands. -/
theorem bash_order_iteration_witness :
    sentCommands trW = (wOk.iterOrder entriesW).map Prod.snd ∧
    (sentCommands trW).Perm (entriesW.map Prod.snd) :=
  ⟨(bash_order_iteration mW entriesW (AuthType.AgentFirst "user") wOk trW resW
      rfl (by decide)).1,
   (bash_order_iteration mW entriesW (AuthType.AgentFirst "user") wOk trW resW
      rfl (by decide)).2 (by decide)⟩

end AnsModules

namespace AnsModules

theorem collectModules_cases (fs : FileSystem) :
    ∀ l : List String,
      (∃ a, collectModules fs l = RustResult.panic ("Bad module type provided: " ++ a)) ∨
      (∃ pairs, collectModules fs l = RustResult.ok pairs ∧
        pairs.map Prod.fst = l.filter (fun n => (Module.new fs n).isOk))
  | [] => Or.inr ⟨[], rfl, by simp⟩
  | name :: rest => by
    cases hm : Module.new fs name with
    | panic m =>
      rcases moduleNew_panic_msg fs name m hm with ⟨a, ha⟩
      exact Or.inl ⟨a, by simp [collectModules, hm, ha]⟩
    | err e =>
      rcases collectModules_cases fs rest with ⟨a, ha⟩ | ⟨pairs, hp, hk⟩
      · exact Or.inl ⟨a, by simp [collectModules, hm, ha]⟩
      · refine Or.inr ⟨pairs, by simp [collectModules, hm, hp], ?_⟩
        rw [hk]
        have hok : (Module.new fs name).isOk = false := by
          rw [hm]
          rfl
        simp [List.filter_cons, hok]
    | ok m =>
      rcases collectModules_cases fs rest with ⟨a, ha⟩ | ⟨pairs, hp, hk⟩
      · exact Or.inl ⟨a, by simp [collectModules, hm, ha, RustResult.map]⟩
      · refine Or.inr ⟨(name, m) :: pairs,
          by simp [collectModules, hm, hp, RustResult.map], ?_⟩
        have hok : (Module.new fs name).isOk = true := by
          rw [hm]
          rfl
        simp [List.filter_cons, hok, hk]

theorem collectModules_mem (fs : FileSystem) :
    ∀ (l : List String) (pairs : List (String × Module)),
      collectModules fs l = RustResult.ok pairs →
      ∀ km ∈ pairs, km.1 ∈ l ∧ Module.new fs km.1 = RustResult.ok km.2
  | [], pairs, h, km, hmem => by
    simp only [collectModules, RustResult.ok.injEq] at h
    rw [← h] at hmem
    exact absurd hmem (by simp)
  | name :: rest, pairs, h, km, hmem => by
    unfold collectModules at h
    cases hm : Module.new fs name with
    | panic m => simp [hm] at h
    | err e =>
      simp only [hm] at h
      obtain ⟨h1, h2⟩ := collectModules_mem fs rest pairs h km hmem
      exact ⟨by simp [h1], h2⟩
    | ok m =>
      simp only [hm] at h
      cases hr : collectModules fs rest with
      | panic mm => rw [hr] at h; simp [RustResult.map] at h
      | err e => rw [hr] at h; simp [RustResult.map] at h
      | ok prs =>
        rw [hr] at h
        simp only [RustResult.map, RustResult.ok.injEq] at h
        rw [← h] at hmem
        rcases List.mem_cons.mp hmem with heq | hmem2
        · subst heq
          exact ⟨by simp, hm⟩
        · obtain ⟨h1, h2⟩ := collectModules_mem fs rest prs hr km hmem2
          exact ⟨by simp [h1], h2⟩

/-- Claim C1 counterexample: a descriptor whose `module_type` is
`frobnicate` makes `Module::new` panic (via `ExecType::from` inside
deserialization) instead of returning an error, and the panic propagates
through `ModuleTree::new`, so the registry — valid sibling module
included — is never built. -/
theorem moduleNew_unknown_type_panics_cex :
    Module.new fsBad "bad.mod" = RustResult.panic "Bad module type provided: frobnicate" ∧
    ModuleTree.new fsBad ["bad.mod", "foo.mod"] =
      RustResult.panic "Bad module type provided: frobnicate" := by
  constructor
  · decide
  · decide

/-- Claim C1 amended: registry construction surfaces file-read and parse
failures as recoverable errors — such entries are skipped and the registry
holds exactly the candidates whose construction succeeded — but a descriptor
with an unrecognized `module_type` makes the whole construction panic with
"Bad module type provided: ...", aborting the process. -/
theorem registry_construction_amended (fs : FileSystem) (entries : List String) :
    (∃ a, ModuleTree.new fs entries =
      RustResult.panic ("Bad module type provided: " ++ a)) ∨
    (∃ t, ModuleTree.new fs entries = RustResult.ok t ∧
      t.tree.map Prod.fst =
        (entries.filter (fun e => ModuleProps.check_filename e)).filter
          (fun n => (Module.new fs n).isOk)) := by
  rcases collectModules_cases fs (entries.filter (fun e => ModuleProps.check_filename e)) with
    ⟨a, ha⟩ | ⟨pairs, hp, hk⟩
  · exact Or.inl ⟨a, by simp [ModuleTree.new, ha, RustResult.map]⟩
  · exact Or.inr ⟨⟨pairs⟩, by simp [ModuleTree.new, hp, RustResult.map], hk⟩

/-- Claim C6 counterexample: the registry built over `foo.mod` stores the
module under the full file name `"foo.mod"`, not under the
extension-stripped stem `"foo"`, which is not a key at all. -/
theorem registry_key_keeps_extension_cex :
    ModuleTree.new fsGood ["foo.mod"] = RustResult.ok tGood ∧
    tGood.tree.map Prod.fst = ["foo.mod"] ∧
    tGood.check_module "foo" = false ∧
    ("foo.mod" : String) ≠ "foo" := by
  refine ⟨by decide, by decide, by decide, by decide⟩

/-- Claim C6 amended: every entry of a successfully built registry is keyed
by the module file's full name — the scanned name with its extension, as
`file_name()` yields it — and that key maps to the module built from that
very file. -/
theorem registry_key_is_full_filename (fs : FileSystem) (entries : List String)
    (t : ModuleTree) (h : ModuleTree.new fs entries = RustResult.ok t) :
    ∀ km ∈ t.tree, km.1 ∈ entries ∧ ModuleProps.check_filename km.1 = true ∧
      Module.new fs km.1 = RustResult.ok km.2 := by
  intro km hmem
  unfold ModuleTree.new at h
  cases hc : collectModules fs (entries.filter fun e => ModuleProps.check_filename e) with
  | panic m => rw [hc] at h; simp [RustResult.map] at h
  | err e => rw [hc] at h; simp [RustResult.map] at h
  | ok pairs =>
    rw [hc] at h
    simp only [RustResult.map, RustResult.ok.injEq] at h
    have hmem2 : km ∈ pairs := by
      rw [← h] at hmem
      exact hmem
    obtain ⟨h1, h2⟩ := collectModules_mem fs _ pairs hc km hmem2
    rw [List.mem_filter] at h1
    exact ⟨h1.1, h1.2, h2⟩

/-- Witness for the amended C6: the fixture registry's only entry is keyed
`"foo.mod"`, a scanned candidate name whose construction succeeded. -/
theorem registry_key_is_full_filename_witness :
    ("foo.mod" : String) ∈ ["foo.mod", "x.txt"] ∧
    ModuleProps.check_filename "foo.mod" = true ∧
    Module.new fsGood "foo.mod" = RustResult.ok mW :=
  registry_key_is_full_filename fsGood ["foo.mod", "x.txt"] tGood (by decide)
    ("foo.mod", mW) (by decide)

end AnsModules

namespace AnsModules

/-- Claim C7 counterexample: materializing the `print(1)` Python payload
does not store the raw text — it stores the base64-encoded, interpreter-
wrapped invocation, computed and cached at `Module::new` time. -/
theorem python_content_encoded_cex :
    Module.new fsPy "py.mod" = RustResult.ok mPy ∧
    mPy.module_content ≠ ModuleContent.Python "print(1)" ∧
    mPy.module_content =
      ModuleContent.Python "python2 -c \" exec('cHJpbnQoMSk='.decode('base64'))\"" := by
  refine ⟨by decide, by decide, by decide⟩

/-- Claim C7 amended: for every Python-kind descriptor, materialization
base64-encodes the payload and caches the fully wrapped interpreter
invocation in the Module Content; the execution step then sends that cached
string unchanged over the channel rather than re-deriving any encoding. -/
theorem python_encoding_at_materialization :
    (∀ (fs : FileSystem) (dpath dcontent typeStr tpath payload : String),
      fs dpath = some dcontent →
      parseDescriptor dcontent = some (typeStr, tpath) →
      ExecType.fromStr typeStr = RustResult.ok ExecType.Python →
      fs tpath = some payload →
      Module.new fs dpath = RustResult.ok
        ⟨ExecType.Python, ModuleContent.Python (pythonWrap (base64Encode payload))⟩) ∧
    (∀ (m : Module) (script : String) (auth : AuthType) (w : World)
        (tr : List Event) (out : String),
      m.module_content = ModuleContent.Python script →
      m.execute_python_script auth w = (tr, RustResult.ok out) →
      sentCommands tr = [script]) := by
  constructor
  · intro fs dpath dcontent typeStr tpath payload h1 h2 h3 h4
    unfold Module.new
    simp [file_2_string, h1, h2, h3, h4]
  · intro m script auth w tr out hc hx
    obtain ⟨_, _, hsento⟩ := obtain_counts m auth w
    unfold Module.execute_python_script at hx
    rcases hob : m.obtain_connection_and_auth auth w with ⟨tro, ro⟩
    rw [hob] at hsento
    simp only at hsento
    simp only [hob] at hx
    cases ro with
    | err e => simp at hx
    | panic mm => simp at hx
    | ok u =>
      simp only [hc] at hx
      by_cases hch : w.channelOk
      · simp only [hch, if_true] at hx
        cases hex : w.execResult script with
        | some o =>
          rw [hex] at hx
          simp only [Prod.mk.injEq] at hx
          rw [← hx.1, sentCommands_append, hsento]
          simp [sentCommands]
        | none =>
          rw [hex] at hx
          simp at hx
      · simp [hch] at hx

/-- Witness for the amended C7: the fixture Python module stores the wrapped
encoding of `print(1)` and its execution sends exactly that cached string. -/
theorem python_encoding_at_materialization_witness :
    Module.new fsPy "py.mod" = RustResult.ok
      ⟨ExecType.Python, ModuleContent.Python (pythonWrap (base64Encode "print(1)"))⟩ ∧
    sentCommands (mPy.execute_python_script (AuthType.AgentFirst "user") wOk).1 =
      [scriptPy] :=
  ⟨python_encoding_at_materialization.1 fsPy "py.mod"
      "module_type = \"py\"\nexec_path = \"script.py\"" "py" "script.py" "print(1)"
      rfl (by decide) (by decide) rfl,
   python_encoding_at_materialization.2 mPy scriptPy (AuthType.AgentFirst "user") wOk
      trPy (scriptPy ++ " output") rfl (by decide)⟩

/-- Claim C8: looking up a name absent from the registry returns — never
panics, never defaults — the error "Module ... not found" naming the
missing module, with no execution and no synchronization activity. -/
theorem run_module_not_found (t : ModuleTree) (name : String) (auth : AuthType)
    (w : World) (h : t.check_module name = false) :
    t.run_module name auth w = ([], RustResult.err ("Module " ++ name ++ " not found")) := by
  unfold ModuleTree.check_module at h
  unfold ModuleTree.run_module
  cases hl : t.tree.lookup name with
  | none => simp [hl]
  | some m =>
    rw [hl] at h
    simp at h

/-- Witness for C8: the empty registry rejects the name "nope". -/
theorem run_module_not_found_witness :
    tEmpty.check_module "nope" = false ∧
    tEmpty.run_module "nope" (AuthType.AgentFirst "user") wOk =
      ([], RustResult.err ("Module " ++ "nope" ++ " not found")) :=
  ⟨rfl, run_module_not_found tEmpty "nope" (AuthType.AgentFirst "user") wOk rfl⟩

/-- Claim C10: a directory entry is a module-descriptor candidate iff its
path has an extension that lowercases to "mod" (entries with no extension
or any other extension fail `check_filename`), and registry construction
ignores non-candidates entirely — filtering them away before any parse. -/
theorem check_filename_iff_mod_extension :
    (∀ e : String, ModuleProps.check_filename e = true ↔
      ∃ ext, pathExtension e = some ext ∧ strToLower ext = "mod") ∧
    (∀ (fs : FileSystem) (entries : List String),
      ModuleTree.new fs entries =
        ModuleTree.new fs (entries.filter (fun e => ModuleProps.check_filename e))) := by
  constructor
  · intro e
    unfold ModuleProps.check_filename
    cases hp : pathExtension e with
    | none => simp
    | some ext => simp [beq_iff_eq]
  · intro fs entries
    unfold ModuleTree.new
    have hff : (entries.filter (fun e => ModuleProps.check_filename e)).filter
        (fun e => ModuleProps.check_filename e) =
        entries.filter (fun e => ModuleProps.check_filename e) := by
      rw [List.filter_filter]
      simp
    rw [hff]

end AnsModules
